import Mathlib

/-!
Verification of the antigravity translation/failover client
(src/antigravity/client.py) against its natural-language specification.

The embedding models:
  the backend stream decoder (the SSE loop of the single-endpoint
  generator), the endpoint failover orchestrator
  (stream_generate_content), and the caller-format encoder
  (convert_sse_to_openai_format and generate_finish_chunk).

Conventions of the embedding:
  Python dict `.get` with a default becomes `Option.getD`; Python
  falsiness of a string is comparison with the empty string and of an
  int is comparison with 0; a raised exception becomes an explicit
  error value; the wall clock becomes explicit integer parameters
  (milliseconds and seconds).  A brace character inside a string
  literal is written with its hexadecimal escape.
-/

/-- A tool call accumulated by the decoder: the dict built at
client.py lines 104-111 with keys id, type, function.name,
function.arguments. -/
structure ToolCall where
  id : String
  type : String
  name : String
  arguments : String
  deriving DecidableEq, Repr

/-- A normalized event yielded by the decoder / forwarded by the
orchestrator: the dicts with keys type ('thinking' | 'text' |
'tool_calls'), content, tool_calls. -/
inductive Ev where
  | thinking (content : String)
  | text (content : String)
  | toolCalls (calls : List ToolCall)
  deriving DecidableEq, Repr

/-- Decoder events with the two synthetic marker yields (client.py
lines 94 and 99/116) tagged as their own constructors so that marker
properties can be stated; `DEv.toEv` erases the tags back to the exact
dicts the source yields (the open marker is the thinking event with
content "<think>\n", the close marker the one with "\n</think>\n"). -/
inductive DEv where
  | openMarker
  | closeMarker
  | thinkingFrag (content : String)
  | textFrag (content : String)
  | toolCallsEv (calls : List ToolCall)
  deriving DecidableEq, Repr

/-- Erasure of the marker tags: the exact event dict yielded by the
source for each decoder emission. -/
def DEv.toEv : DEv → Ev
  | DEv.openMarker => Ev.thinking "<think>\n"
  | DEv.closeMarker => Ev.thinking "\n</think>\n"
  | DEv.thinkingFrag s => Ev.thinking s
  | DEv.textFrag s => Ev.text s
  | DEv.toolCallsEv c => Ev.toolCalls c

/-- The nested args object of a functionCall part: client.py line 109
reads function_call.get('args', \x7b\x7d).get('query', '\x7b\x7d'). -/
structure ArgsObj where
  query : Option String
  deriving DecidableEq, Repr

/-- A functionCall part payload: keys id, name, args, each possibly
absent (client.py lines 103-110). -/
structure FuncCall where
  id : Option String
  name : Option String
  args : Option ArgsObj
  deriving DecidableEq, Repr

/-- One part of a candidate's content (client.py lines 91-111):
`thought` models part.get('thought') is True, `text` the presence and
value of the 'text' key, `functionCall` the 'functionCall' key. -/
structure SsePart where
  thought : Bool := false
  text : Option String := none
  functionCall : Option FuncCall := none
  deriving DecidableEq, Repr

/-- One candidate of a record (client.py lines 88-113): its content
parts and the finishReason field (absent, empty, or a string). -/
structure Candidate where
  parts : List SsePart := []
  finishReason : Option String := none
  deriving DecidableEq, Repr

/-- The parsed JSON payload of one data record: the candidates list
extracted at client.py line 84 (missing keys yield the empty list). -/
structure RecordData where
  candidates : List Candidate := []
  deriving DecidableEq, Repr

/-- One input line of the SSE stream, classified as the loop at
client.py lines 73-86 classifies it: `noise` is an empty line or one
without the data prefix (skipped), `malformed` is a data line whose
JSON fails to parse (skipped, line 121-122), `done` is the [DONE]
sentinel (terminates decoding, line 79-80), `record` is a parsed
payload. -/
inductive Line where
  | noise
  | malformed
  | done
  | record (r : RecordData)
  deriving DecidableEq, Repr

/-- The decoder's mutable state: the thinking_started flag (line 53)
and the tool_calls accumulator (line 54). -/
structure DecState where
  thinking : Bool
  toolCalls : List ToolCall
  deriving DecidableEq, Repr

/-- Initial decoder state: thinking_started = False, tool_calls = []. -/
def initState : DecState := ⟨false, []⟩

/-- function_call.get('args', \x7b\x7d).get('query', '\x7b\x7d')
(client.py line 109). -/
def argsQueryStr : Option ArgsObj → String
  | none => "\x7b\x7d"
  | some a => a.query.getD "\x7b\x7d"

/-- The ToolCall dict built from a functionCall part (client.py lines
104-111): id and name default to the empty string, type is the literal
"function", arguments is the nested args query defaulting to the
empty-object literal. -/
def toolCallOf (fc : FuncCall) : ToolCall :=
  ⟨fc.id.getD "", "function", fc.name.getD "", argsQueryStr fc.args⟩

/-- Processing of a single part (client.py lines 91-111): a thought
part opens the thinking section if needed and yields the fragment; a
text part closes an open thinking section and yields the fragment; a
functionCall part only accumulates; any other part is skipped. -/
def processPart (st : DecState) (p : SsePart) : List DEv × DecState :=
  if p.thought then
    if st.thinking then
      ([DEv.thinkingFrag (p.text.getD "")], st)
    else
      ([DEv.openMarker, DEv.thinkingFrag (p.text.getD "")], ⟨true, st.toolCalls⟩)
  else if p.text.isSome then
    if st.thinking then
      ([DEv.closeMarker, DEv.textFrag (p.text.getD "")], ⟨false, st.toolCalls⟩)
    else
      ([DEv.textFrag (p.text.getD "")], st)
  else
    match p.functionCall with
    | some fc => ([], ⟨st.thinking, st.toolCalls ++ [toolCallOf fc]⟩)
    | none => ([], st)

/-- Left-to-right processing of a candidate's parts (the for loop at
client.py line 91). -/
def processParts (st : DecState) : List SsePart → List DEv × DecState
  | [] => ([], st)
  | p :: ps =>
    ((processPart st p).1 ++ (processParts (processPart st p).2 ps).1,
      (processParts (processPart st p).2 ps).2)

/-- Python truthiness of the finishReason field: a non-empty string. -/
def truthyStr (s : Option String) : Bool := !(s.getD "" == "")

/-- Processing of one parsed record (client.py lines 84-119): skip if
there is no candidate, else process the first candidate's parts, then,
if finishReason is truthy and the accumulator is non-empty, close any
open thinking section, emit the accumulated tool calls, and clear the
accumulator. -/
def processRecord (st : DecState) (r : RecordData) : List DEv × DecState :=
  match r.candidates with
  | [] => ([], st)
  | c :: _ =>
    if truthyStr c.finishReason && !(processParts st c.parts).2.toolCalls.isEmpty then
      ((processParts st c.parts).1 ++
        ((if (processParts st c.parts).2.thinking then [DEv.closeMarker] else []) ++
          [DEv.toolCallsEv (processParts st c.parts).2.toolCalls]),
        ⟨false, []⟩)
    else processParts st c.parts

/-- The SSE read loop (client.py lines 73-125): noise and malformed
lines are skipped, the [DONE] sentinel stops decoding, records are
processed in order.  Returns the emitted events and the final decoder
state. -/
def processLines (st : DecState) : List Line → List DEv × DecState
  | [] => ([], st)
  | Line.noise :: rest => processLines st rest
  | Line.malformed :: rest => processLines st rest
  | Line.done :: _ => ([], st)
  | Line.record r :: rest =>
    ((processRecord st r).1 ++ (processLines (processRecord st r).2 rest).1,
      (processLines (processRecord st r).2 rest).2)

/-- The event stream the single-endpoint generator yields for a given
input stream, as the source emits it (marker tags erased). -/
def decodeStream (lines : List Line) : List Ev :=
  ((processLines initState lines).1).map DEv.toEv

/-- The exception raised out of one endpoint attempt, split by the
except clauses of stream_generate_content (client.py lines 179-220):
httpx.TimeoutException, other httpx.HTTPError (carrying its message),
the ValueError raised for a 403 response (line 66), and any other
exception. -/
inductive PyExc where
  | timeoutException (msg : String)
  | httpError (msg : String)
  | valueError (msg : String)
  | otherError (msg : String)
  deriving DecidableEq, Repr

/-- Helper for substring search over character lists. -/
def subListAux (needle : List Char) : List Char → Bool
  | [] => needle.isEmpty
  | c :: rest => needle.isPrefixOf (c :: rest) || subListAux needle rest

/-- Python's `needle in s` substring test. -/
def containsSub (needle s : String) : Bool := subListAux needle.toList s.toList

/-- The substring-based status classification of client.py lines
195-199: a message containing "429" is marked 429, else one containing
"500"/"502"/"503"/"504" is marked 500, else no status is recognized. -/
def classifyStatus (msg : String) : Option Nat :=
  if containsSub "429" msg then some 429
  else if containsSub "500" msg || containsSub "502" msg || containsSub "503" msg ||
      containsSub "504" msg then some 500
  else none

/-- The observable behaviour of one endpoint attempt: the events its
generator yields, followed either by normal completion (`error =
none`) or by a raised exception. -/
structure Attempt where
  events : List Ev
  error : Option PyExc
  deriving DecidableEq, Repr

/-- The message of the HTTPError constructed for a timeout at
client.py line 180. -/
def timeoutMsg (timeout : Nat) : String :=
  "请求超时（超过 " ++ toString timeout ++ " 秒）"

/-- The failover loop of stream_generate_content (client.py lines
163-226), over the observable behaviours of the endpoint attempts in
list order.  Returns every event delivered to the caller (concatenated
across attempts) and the final outcome.  A timeout is converted to an
HTTPError with the timeout message and retried if a candidate remains;
an HTTPError is retried only if its message classifies as 429/5xx and
a candidate remains; any other exception is retried if a candidate
remains.  The second argument models the last_error variable, used
only by the dead fall-through at lines 222-226. -/
def runFrom (timeout : Nat) : List Attempt → Option PyExc → List Ev × Option PyExc
  | [], last => ([], some (last.getD (PyExc.httpError "所有端点都失败")))
  | a :: rest, _ =>
    match a.error with
    | none => (a.events, none)
    | some (PyExc.timeoutException _) =>
      if rest.isEmpty then
        (a.events, some (PyExc.httpError (timeoutMsg timeout)))
      else
        (a.events ++ (runFrom timeout rest (some (PyExc.httpError (timeoutMsg timeout)))).1,
          (runFrom timeout rest (some (PyExc.httpError (timeoutMsg timeout)))).2)
    | some (PyExc.httpError msg) =>
      if (classifyStatus msg).isSome && !rest.isEmpty then
        (a.events ++ (runFrom timeout rest (some (PyExc.httpError msg))).1,
          (runFrom timeout rest (some (PyExc.httpError msg))).2)
      else
        (a.events, some (PyExc.httpError msg))
    | some (PyExc.valueError msg) =>
      if rest.isEmpty then
        (a.events, some (PyExc.valueError msg))
      else
        (a.events ++ (runFrom timeout rest (some (PyExc.valueError msg))).1,
          (runFrom timeout rest (some (PyExc.valueError msg))).2)
    | some (PyExc.otherError msg) =>
      if rest.isEmpty then
        (a.events, some (PyExc.otherError msg))
      else
        (a.events ++ (runFrom timeout rest (some (PyExc.otherError msg))).1,
          (runFrom timeout rest (some (PyExc.otherError msg))).2)

/-- The failover orchestrator stream_generate_content: run the
attempts in order starting with last_error = None. -/
def stream_generate_content (endpoints : List Attempt) (timeout : Nat) :
    List Ev × Option PyExc :=
  runFrom timeout endpoints none

/-- JSON values, for the chunk bodies serialized by json.dumps. -/
inductive J where
  | str (s : String)
  | num (n : Int)
  | null
  | arr (elems : List J)
  | obj (fields : List (String × J))

/-- Escape of one character inside a JSON string literal. -/
def escapeChar (c : Char) : String :=
  if c = '\\' then "\\\\"
  else if c = '\"' then "\\\""
  else if c = '\n' then "\\n"
  else if c = '\r' then "\\r"
  else if c = '\t' then "\\t"
  else String.singleton c

/-- Escape of a JSON string body. -/
def escapeJson (s : String) : String :=
  String.join (s.toList.map escapeChar)

mutual

/-- Serialization matching json.dumps with its default separators:
", " between items and ": " after keys, insertion order preserved. -/
def dumps : J → String
  | J.str s => "\"" ++ escapeJson s ++ "\""
  | J.num n => toString n
  | J.null => "null"
  | J.arr l => "[" ++ dumpsArr l ++ "]"
  | J.obj l => "\x7b" ++ dumpsObj l ++ "\x7d"

/-- Serialization of array elements, comma-separated. -/
def dumpsArr : List J → String
  | [] => ""
  | [x] => dumps x
  | x :: y :: r => dumps x ++ ", " ++ dumpsArr (y :: r)

/-- Serialization of object fields, comma-separated. -/
def dumpsObj : List (String × J) → String
  | [] => ""
  | [(k, v)] => "\"" ++ escapeJson k ++ "\": " ++ dumps v
  | (k, v) :: p :: r => "\"" ++ escapeJson k ++ "\": " ++ dumps v ++ ", " ++ dumpsObj (p :: r)

end

/-- Field lookup in a JSON object value. -/
def J.lookup : J → String → Option J
  | J.obj fields, k => List.lookup k fields
  | _, _ => none

/-- The JSON rendering of one accumulated ToolCall dict. -/
def jToolCall (t : ToolCall) : J :=
  J.obj [("id", J.str t.id), ("type", J.str t.type),
    ("function", J.obj [("name", J.str t.name), ("arguments", J.str t.arguments)])]

/-- The input dict of convert_sse_to_openai_format: the type key, the
content key, and the tool_calls key (whose absence makes the
tool_calls branch raise a KeyError). -/
structure SseChunk where
  type : Option String := none
  content : Option String := none
  tool_calls : Option (List ToolCall) := none
  deriving DecidableEq, Repr

/-- Default stream id (client.py lines 319-320 and 388-389): when the
caller-supplied value is falsy (absent or empty), an id derived from
the current time in milliseconds. -/
def defaultStreamId (stream_id : Option String) (nowMs : Int) : String :=
  if stream_id.getD "" = "" then "chatcmpl-" ++ toString nowMs else stream_id.getD ""

/-- Default created timestamp (client.py lines 321-322 and 390-391):
when the caller-supplied value is falsy (absent or zero), the current
time in seconds. -/
def defaultCreated (created : Option Int) (nowS : Int) : Int :=
  if created.getD 0 = 0 then nowS else created.getD 0

/-- The chunk body dict shared by the three emission sites (client.py
lines 333-345, 348-360, 395-405): id, object, created, model, and one
choice with the given delta fields and finish_reason. -/
def chunkBody (sid : String) (cr : Int) (model : String)
    (delta : List (String × J)) (finish : J) : J :=
  J.obj [("id", J.str sid), ("object", J.str "chat.completion.chunk"),
    ("created", J.num cr), ("model", J.str model),
    ("choices", J.arr [J.obj [("index", J.num 0), ("delta", J.obj delta),
      ("finish_reason", finish)]])]

/-- convert_sse_to_openai_format (client.py lines 299-365): thinking
chunks produce the empty string; tool_calls chunks produce a framed
chunk with a tool_calls delta (raising if the tool_calls key is
absent); text chunks produce a framed chunk with a content delta; any
other type produces the empty string.  The wall clock is passed as
explicit nowMs/nowS arguments. -/
def convert_sse_to_openai_format (sse_chunk : SseChunk) (model : String)
    (stream_id : Option String) (created : Option Int) (nowMs nowS : Int) :
    Except String String :=
  if sse_chunk.type = some "thinking" then Except.ok ""
  else if sse_chunk.type = some "tool_calls" then
    match sse_chunk.tool_calls with
    | none => Except.error "KeyError: tool_calls"
    | some tcs =>
      Except.ok ("data: " ++
        dumps (chunkBody (defaultStreamId stream_id nowMs) (defaultCreated created nowS)
          model [("tool_calls", J.arr (tcs.map jToolCall))] J.null) ++ "\n\n")
  else if sse_chunk.type = some "text" then
    Except.ok ("data: " ++
      dumps (chunkBody (defaultStreamId stream_id nowMs) (defaultCreated created nowS)
        model [("content", J.str (sse_chunk.content.getD ""))] J.null) ++ "\n\n")
  else Except.ok ""

/-- generate_finish_chunk (client.py lines 368-407): the terminal
chunk with an empty delta and finish_reason "tool_calls" or "stop",
followed by the [DONE] sentinel record in the same framing. -/
def generate_finish_chunk (model : String) (has_tool_calls : Bool)
    (stream_id : Option String) (created : Option Int) (nowMs nowS : Int) : String :=
  "data: " ++
    dumps (chunkBody (defaultStreamId stream_id nowMs) (defaultCreated created nowS)
      model [] (J.str (if has_tool_calls then "tool_calls" else "stop"))) ++
    "\n\ndata: [DONE]\n\n"

/-- The SseChunk dict carried by each normalized event, as the decoder
yields it. -/
def evToChunk : Ev → SseChunk
  | Ev.thinking s => ⟨some "thinking", some s, none⟩
  | Ev.text s => ⟨some "text", some s, none⟩
  | Ev.toolCalls c => ⟨some "tool_calls", none, some c⟩

/-- Modelled from the spec: the per-session driver that renders a
response stream is not part of the client module; section 4.3 of the
specification requires it to generate the streamId and createdAt
defaults once at session start and reuse them for every chunk,
including the terminal chunk.  Each event is rendered at its own wall
clock time (the pair carried with it); the terminal chunk at endMs/endS. -/
def encodeSession (model : String) (streamId : Option String)
    (createdAt : Option Int) (now0Ms now0S : Int)
    (events : List (Ev × Int × Int)) (hasTools : Bool) (endMs endS : Int) :
    List (Except String String) :=
  (events.map fun e =>
    convert_sse_to_openai_format (evToChunk e.1) model
      (some (defaultStreamId streamId now0Ms)) (some (defaultCreated createdAt now0S))
      e.2.1 e.2.2) ++
  [Except.ok (generate_finish_chunk model hasTools
    (some (defaultStreamId streamId now0Ms)) (some (defaultCreated createdAt now0S))
    endMs endS)]

/-- The marker subsequence of a decoder trace: true for an open
marker, false for a close marker. -/
def markerTag : DEv → Option Bool
  | DEv.openMarker => some true
  | DEv.closeMarker => some false
  | _ => none

/-- The marker subsequence of a trace. -/
def markerSeq (evs : List DEv) : List Bool := evs.filterMap markerTag

/-- Number of synthetic open markers in a trace. -/
def countOpen : List DEv → Nat
  | [] => 0
  | DEv.openMarker :: r => countOpen r + 1
  | _ :: r => countOpen r

/-- Number of synthetic close markers in a trace. -/
def countClose : List DEv → Nat
  | [] => 0
  | DEv.closeMarker :: r => countClose r + 1
  | _ :: r => countClose r

/-- Strict alternation of a marker sequence starting from a thinking
flag: each marker is the negation of the current flag and updates it,
so no two markers of the same kind are adjacent in the subsequence. -/
def altFrom : Bool → List Bool → Bool
  | _, [] => true
  | b, m :: r => (m == !b) && altFrom m r

/-- The flag value after a marker sequence has been applied. -/
def flagAfter : Bool → List Bool → Bool
  | b, [] => b
  | _, m :: r => flagAfter m r

/-- The tool-call payloads emitted in a decoder trace. -/
def toolEvents (evs : List DEv) : List (List ToolCall) :=
  evs.filterMap fun e => match e with
    | DEv.toolCallsEv c => some c
    | _ => none

/-- The ToolCall a part contributes to the accumulator, if any: only a
part that reaches the functionCall branch contributes. -/
def partCall (p : SsePart) : Option ToolCall :=
  if p.thought then none
  else if p.text.isSome then none
  else p.functionCall.map toolCallOf

/-- The tool calls a record's first candidate accumulates. -/
def recCalls (r : RecordData) : List ToolCall :=
  match r.candidates with
  | [] => []
  | c :: _ => c.parts.filterMap partCall

/-- Whether a record carries a truthy turn-completion signal. -/
def recFinish (r : RecordData) : Bool :=
  match r.candidates with
  | [] => false
  | c :: _ => truthyStr c.finishReason

/-- Marker subsequences distribute over trace concatenation. -/
theorem markerSeq_append (a b : List DEv) :
    markerSeq (a ++ b) = markerSeq a ++ markerSeq b := by
  simp [markerSeq, List.filterMap_append]

/-- Open-marker counts are additive over concatenation. -/
theorem countOpen_append (a b : List DEv) :
    countOpen (a ++ b) = countOpen a + countOpen b := by
  induction a with
  | nil => simp [countOpen]
  | cons e r ih => cases e <;> simp [countOpen, ih] <;> omega

/-- Close-marker counts are additive over concatenation. -/
theorem countClose_append (a b : List DEv) :
    countClose (a ++ b) = countClose a + countClose b := by
  induction a with
  | nil => simp [countClose]
  | cons e r ih => cases e <;> simp [countClose, ih] <;> omega

/-- The flag after a concatenated marker sequence. -/
theorem flagAfter_append (l1 l2 : List Bool) (b : Bool) :
    flagAfter b (l1 ++ l2) = flagAfter (flagAfter b l1) l2 := by
  induction l1 generalizing b with
  | nil => simp [flagAfter]
  | cons m r ih => simp [flagAfter, ih]

/-- Alternation splits over concatenation at the intermediate flag. -/
theorem altFrom_append (l1 l2 : List Bool) (b : Bool) :
    altFrom b (l1 ++ l2) = (altFrom b l1 && altFrom (flagAfter b l1) l2) := by
  induction l1 generalizing b with
  | nil => simp [altFrom, flagAfter]
  | cons m r ih => simp [altFrom, flagAfter, ih, Bool.and_assoc]

/-- Combined marker invariant of a single part step: the markers it
emits alternate from the incoming flag, end at the outgoing flag, and
balance the open/close counts against the flag change. -/
theorem processPart_inv (st : DecState) (p : SsePart) :
    altFrom st.thinking (markerSeq (processPart st p).1) = true ∧
    flagAfter st.thinking (markerSeq (processPart st p).1) = (processPart st p).2.thinking ∧
    countOpen (processPart st p).1 + (if st.thinking then 1 else 0) =
      countClose (processPart st p).1 + (if (processPart st p).2.thinking then 1 else 0) := by
  rcases st with ⟨b, tc⟩
  rcases p with ⟨th, tx, fc⟩
  cases th <;> cases b <;> cases tx <;> cases fc <;>
    simp [processPart, markerSeq, markerTag, altFrom, flagAfter, countOpen, countClose,
      List.filterMap]

/-- The marker invariant lifted over a candidate's part list. -/
theorem processParts_inv (ps : List SsePart) (st : DecState) :
    altFrom st.thinking (markerSeq (processParts st ps).1) = true ∧
    flagAfter st.thinking (markerSeq (processParts st ps).1) = (processParts st ps).2.thinking ∧
    countOpen (processParts st ps).1 + (if st.thinking then 1 else 0) =
      countClose (processParts st ps).1 + (if (processParts st ps).2.thinking then 1 else 0) := by
  induction ps generalizing st with
  | nil => simp [processParts, markerSeq, altFrom, flagAfter, countOpen, countClose]
  | cons p ps ih =>
    obtain ⟨h1, h2, h3⟩ := processPart_inv st p
    obtain ⟨g1, g2, g3⟩ := ih (processPart st p).2
    refine ⟨?_, ?_, ?_⟩
    · rw [processParts, markerSeq_append, altFrom_append, h1, h2, g1]
      rfl
    · rw [processParts, markerSeq_append, flagAfter_append, h2, g2]
    · have := countOpen_append (processPart st p).1 (processParts (processPart st p).2 ps).1
      have := countClose_append (processPart st p).1 (processParts (processPart st p).2 ps).1
      rw [processParts]
      dsimp only
      rw [countOpen_append, countClose_append]
      omega

/-- The marker invariant for one full record step, including the
closing marker possibly emitted before a tool-call batch. -/
theorem processRecord_inv (st : DecState) (r : RecordData) :
    altFrom st.thinking (markerSeq (processRecord st r).1) = true ∧
    flagAfter st.thinking (markerSeq (processRecord st r).1) = (processRecord st r).2.thinking ∧
    countOpen (processRecord st r).1 + (if st.thinking then 1 else 0) =
      countClose (processRecord st r).1 + (if (processRecord st r).2.thinking then 1 else 0) := by
  rcases r with ⟨cands⟩
  cases cands with
  | nil => simp [processRecord, markerSeq, altFrom, flagAfter, countOpen, countClose]
  | cons c rest =>
    obtain ⟨h1, h2, h3⟩ := processParts_inv c.parts st
    by_cases hc : (truthyStr c.finishReason &&
        !(processParts st c.parts).2.toolCalls.isEmpty) = true
    · by_cases hth : (processParts st c.parts).2.thinking = true
      · refine ⟨?_, ?_, ?_⟩
        · rw [processRecord]
          simp only [hc, if_pos]
          rw [markerSeq_append, altFrom_append, h1, h2]
          simp [hth, markerSeq, markerTag, altFrom, List.filterMap]
        · rw [processRecord]
          simp only [hc, if_pos]
          rw [markerSeq_append, flagAfter_append, h2]
          simp [hth, markerSeq, markerTag, flagAfter, List.filterMap]
        · rw [processRecord]
          simp only [hc, if_pos]
          rw [countOpen_append, countClose_append]
          simp only [hth, if_pos]
          simp [countOpen, countClose]
          rw [hth] at h3
          simp at h3
          omega
      · refine ⟨?_, ?_, ?_⟩
        · rw [processRecord]
          simp only [hc, if_pos]
          rw [markerSeq_append, altFrom_append, h1, h2]
          simp [hth, markerSeq, markerTag, altFrom, List.filterMap]
        · rw [processRecord]
          simp only [hc, if_pos]
          rw [markerSeq_append, flagAfter_append, h2]
          simp [hth, markerSeq, markerTag, flagAfter, List.filterMap]
        · rw [processRecord]
          simp only [hc, if_pos]
          rw [countOpen_append, countClose_append]
          simp only [hth]
          simp [countOpen, countClose]
          rw [eq_false_of_ne_true hth] at h3
          simp at h3
          omega
    · rw [processRecord]
      simp only [hc, if_neg, Bool.not_eq_true]
      exact ⟨h1, h2, h3⟩

/-- The marker invariant over the whole line stream. -/
theorem processLines_inv (lines : List Line) (st : DecState) :
    altFrom st.thinking (markerSeq (processLines st lines).1) = true ∧
    flagAfter st.thinking (markerSeq (processLines st lines).1) =
      (processLines st lines).2.thinking ∧
    countOpen (processLines st lines).1 + (if st.thinking then 1 else 0) =
      countClose (processLines st lines).1 +
        (if (processLines st lines).2.thinking then 1 else 0) := by
  induction lines generalizing st with
  | nil => simp [processLines, markerSeq, altFrom, flagAfter, countOpen, countClose]
  | cons l rest ih =>
    cases l with
    | noise => simpa [processLines] using ih st
    | malformed => simpa [processLines] using ih st
    | done => simp [processLines, markerSeq, altFrom, flagAfter, countOpen, countClose]
    | record r =>
      obtain ⟨h1, h2, h3⟩ := processRecord_inv st r
      obtain ⟨g1, g2, g3⟩ := ih (processRecord st r).2
      refine ⟨?_, ?_, ?_⟩
      · rw [processLines]
        dsimp only
        rw [markerSeq_append, altFrom_append, h1, h2, g1]
        rfl
      · rw [processLines]
        dsimp only
        rw [markerSeq_append, flagAfter_append, h2, g2]
      · rw [processLines]
        dsimp only
        rw [countOpen_append, countClose_append]
        omega

/-- C4 counterexample: on the stream consisting of one record with a
single thought part, after which the transport closes, the decoder
emits one synthetic open marker and zero close markers, so the claimed
equality of marker counts fails for a stream that ends while the
thinking-open flag is set. -/
theorem marker_pairing_counterexample :
    countOpen (processLines initState
        [Line.record ⟨[⟨[⟨true, some "Let", none⟩], none⟩]⟩]).1 = 1 ∧
    countClose (processLines initState
        [Line.record ⟨[⟨[⟨true, some "Let", none⟩], none⟩]⟩]).1 = 0 ∧
    (processLines initState
        [Line.record ⟨[⟨[⟨true, some "Let", none⟩], none⟩]⟩]).2.thinking = true := by
  decide

/-- C4 (amended): in every decoder run the synthetic markers strictly
alternate starting with an open marker (so no two markers of the same
kind are ever adjacent in the marker subsequence), and the number of
open markers equals the number of close markers plus one exactly when
the stream ends with the thinking-open flag set (they are equal
otherwise). -/
theorem marker_pairing_flag (lines : List Line) :
    altFrom false (markerSeq (processLines initState lines).1) = true ∧
    countOpen (processLines initState lines).1 =
      countClose (processLines initState lines).1 +
        (if (processLines initState lines).2.thinking then 1 else 0) := by
  obtain ⟨h1, _, h3⟩ := processLines_inv lines initState
  refine ⟨h1, ?_⟩
  simpa [initState] using h3

/-- A single part step emits no tool-call event and appends exactly
its contributed call (if any) to the accumulator. -/
theorem processPart_tools (st : DecState) (p : SsePart) :
    toolEvents (processPart st p).1 = [] ∧
    (processPart st p).2.toolCalls = st.toolCalls ++ (partCall p).toList := by
  rcases st with ⟨b, tc⟩
  rcases p with ⟨th, tx, fc⟩
  cases th <;> cases b <;> cases tx <;> cases fc <;>
    simp [processPart, partCall, toolEvents, List.filterMap]

/-- Part-list processing emits no tool-call event and extends the
accumulator by the calls contributed by the parts, in order. -/
theorem processParts_tools (ps : List SsePart) (st : DecState) :
    toolEvents (processParts st ps).1 = [] ∧
    (processParts st ps).2.toolCalls = st.toolCalls ++ ps.filterMap partCall := by
  induction ps generalizing st with
  | nil => simp [processParts, toolEvents]
  | cons p ps ih =>
    obtain ⟨h1, h2⟩ := processPart_tools st p
    obtain ⟨g1, g2⟩ := ih (processPart st p).2
    constructor
    · rw [processParts]
      dsimp only
      rw [toolEvents, List.filterMap_append]
      rw [toolEvents] at h1 g1
      rw [h1, g1]
      rfl
    · rw [processParts]
      dsimp only
      rw [g2, h2]
      cases h : partCall p <;> simp [List.filterMap_cons, h]

/-- Tool-call event extraction distributes over concatenation. -/
theorem toolEvents_append (a b : List DEv) :
    toolEvents (a ++ b) = toolEvents a ++ toolEvents b := by
  simp [toolEvents, List.filterMap_append]

/-- C5: for every record processed in any decoder state, a ToolCalls
event is emitted exactly when the record carries a truthy
turn-completion signal while the accumulator (carried-over calls plus
the calls contributed by this record's parts) is non-empty; the
emitted event carries precisely that whole accumulator and the
accumulator is cleared afterwards, while without an emission the
accumulator is carried forward unchanged, so each accumulated call
ends up in exactly one emitted batch. -/
theorem tool_calls_emission_characterization (st : DecState) (r : RecordData) :
    toolEvents (processRecord st r).1 =
      (if recFinish r && !(st.toolCalls ++ recCalls r).isEmpty
        then [st.toolCalls ++ recCalls r] else []) ∧
    (processRecord st r).2.toolCalls =
      (if recFinish r && !(st.toolCalls ++ recCalls r).isEmpty
        then [] else st.toolCalls ++ recCalls r) := by
  rcases r with ⟨cands⟩
  cases cands with
  | nil => simp [processRecord, recFinish, recCalls, toolEvents]
  | cons c rest =>
    obtain ⟨h1, h2⟩ := processParts_tools c.parts st
    have hacc : (processParts st c.parts).2.toolCalls =
        st.toolCalls ++ recCalls ⟨c :: rest⟩ := by
      rw [h2]; rfl
    have hfin : recFinish ⟨c :: rest⟩ = truthyStr c.finishReason := rfl
    by_cases hc : (truthyStr c.finishReason &&
        !(processParts st c.parts).2.toolCalls.isEmpty) = true
    · have hcond : (recFinish ⟨c :: rest⟩ &&
          !(st.toolCalls ++ recCalls ⟨c :: rest⟩).isEmpty) = true := by
        rw [hfin, ← hacc]; exact hc
      refine ⟨?_, ?_⟩
      · rw [processRecord]
        simp only [hc, if_pos]
        rw [toolEvents_append, toolEvents_append, h1, hcond]
        cases (processParts st c.parts).2.thinking <;>
          simp [toolEvents, List.filterMap, hacc]
      · rw [processRecord]
        simp only [hc, if_pos, hcond]
    · have hcond : (recFinish ⟨c :: rest⟩ &&
          !(st.toolCalls ++ recCalls ⟨c :: rest⟩).isEmpty) = false := by
        rw [hfin, ← hacc]; exact eq_false_of_ne_true hc
      refine ⟨?_, ?_⟩
      · rw [processRecord]
        simp only [hc, if_neg, Bool.not_eq_true, hcond]
        simpa [hcond] using h1
      · rw [processRecord]
        simp only [hc, if_neg, Bool.not_eq_true, hcond]
        simpa [hcond] using hacc

/-- C9: a functionCall part with omitted id yields the empty string
for id, with omitted name the empty string for name (neither is an
error: the part is accepted and accumulated, emitting nothing), and
its arguments are the nested args query field, defaulting to the
empty-object JSON literal when args or its query field is absent. -/
theorem function_call_defaults (i n : Option String) (a : Option ArgsObj) (st : DecState) :
    (processPart st ⟨false, none, some ⟨i, n, a⟩⟩).1 = [] ∧
    (processPart st ⟨false, none, some ⟨i, n, a⟩⟩).2.toolCalls =
      st.toolCalls ++ [⟨i.getD "", "function", n.getD "",
        match a with
        | none => "\x7b\x7d"
        | some ao =>
          match ao.query with
          | none => "\x7b\x7d"
          | some q => q⟩] := by
  cases a with
  | none => simp [processPart, toolCallOf, argsQueryStr]
  | some ao => cases h : ao.query <;> simp [processPart, toolCallOf, argsQueryStr, h]

/-- The orchestrator's behaviour on a non-empty candidate list does
not depend on the incoming last_error value (it is only read by the
dead fall-through after the loop, reachable only for an empty list). -/
theorem runFrom_last_irrelevant (timeout : Nat) (a : Attempt) (l : List Attempt)
    (x y : Option PyExc) :
    runFrom timeout (a :: l) x = runFrom timeout (a :: l) y := rfl

/-- C1 counterexample: an attempt that fails with the Forbidden
classification (the ValueError raised for a 403 response) on the first
endpoint, with a backup endpoint available, does not propagate: the
backup is attempted, its event is delivered, and the run succeeds. -/
theorem forbidden_failover_counterexample :
    stream_generate_content
      [⟨[], some (PyExc.valueError "403 Forbidden - 该账号没有使用权限: denied")⟩,
       ⟨[Ev.text "hi"], none⟩] 120 =
      ([Ev.text "hi"], none) := by decide

/-- C1 (amended): the Forbidden failure (the 403 ValueError) is caught
by the orchestrator's generic exception handler, so with at least one
candidate remaining the orchestrator continues to the next candidate
exactly as for any other generic error, and the error propagates to
the caller unchanged only when it occurs on the final candidate. -/
theorem forbidden_generic_handler (evs : List Ev) (msg : String) (rest : List Attempt)
    (timeout : Nat) (h : rest ≠ []) :
    stream_generate_content (⟨evs, some (PyExc.valueError msg)⟩ :: rest) timeout =
      (evs ++ (stream_generate_content rest timeout).1,
        (stream_generate_content rest timeout).2) ∧
    stream_generate_content [⟨evs, some (PyExc.valueError msg)⟩] timeout =
      (evs, some (PyExc.valueError msg)) := by
  constructor
  · cases rest with
    | nil => exact absurd rfl h
    | cons b l =>
      show runFrom timeout (⟨evs, some (PyExc.valueError msg)⟩ :: b :: l) none = _
      rw [runFrom]
      simp only [List.isEmpty_cons, Bool.false_eq_true, if_false]
      rw [runFrom_last_irrelevant timeout b l (some (PyExc.valueError msg)) none]
      rfl
  · rfl

/-- C1 witness: the amended behaviour at a concrete 403 failure with
one backup candidate. -/
theorem forbidden_generic_handler_witness :
    ([⟨[Ev.text "b"], none⟩] : List Attempt) ≠ [] ∧
    (stream_generate_content
        [⟨[], some (PyExc.valueError "403")⟩, ⟨[Ev.text "b"], none⟩] 120 =
      (([] : List Ev) ++ (stream_generate_content [⟨[Ev.text "b"], none⟩] 120).1,
        (stream_generate_content [⟨[Ev.text "b"], none⟩] 120).2) ∧
     stream_generate_content [⟨[], some (PyExc.valueError "403")⟩] 120 =
      ([], some (PyExc.valueError "403"))) :=
  ⟨by decide, forbidden_generic_handler [] "403" [⟨[Ev.text "b"], none⟩] 120 (by decide)⟩

/-- C2 counterexample: the first endpoint yields an event (the commit
point) and then fails with a transport timeout; with a backup
remaining the orchestrator retries it anyway, so the caller observes
events from two different endpoints and no fatal error. -/
theorem post_commit_failover_counterexample :
    stream_generate_content
      [⟨[Ev.text "partial"], some (PyExc.timeoutException "read timed out")⟩,
       ⟨[Ev.text "rest"], none⟩] 120 =
      ([Ev.text "partial", Ev.text "rest"], none) := by decide

/-- C2 (amended): the orchestrator tracks no commit point: a transport
error after events have been yielded is classified exactly like a
pre-commit one, so a post-commit timeout on a non-final candidate
causes failover (the caller sees the already-delivered events followed
by the next candidate's events), and it surfaces as an error only on
the final candidate, converted to an HTTPError with the timeout
message. -/
theorem post_commit_no_tracking (evs : List Ev) (msg : String) (rest : List Attempt)
    (timeout : Nat) (hevs : evs ≠ []) (hrest : rest ≠ []) :
    stream_generate_content (⟨evs, some (PyExc.timeoutException msg)⟩ :: rest) timeout =
      (evs ++ (stream_generate_content rest timeout).1,
        (stream_generate_content rest timeout).2) ∧
    stream_generate_content [⟨evs, some (PyExc.timeoutException msg)⟩] timeout =
      (evs, some (PyExc.httpError (timeoutMsg timeout))) := by
  constructor
  · cases rest with
    | nil => exact absurd rfl hrest
    | cons b l =>
      show runFrom timeout (⟨evs, some (PyExc.timeoutException msg)⟩ :: b :: l) none = _
      rw [runFrom]
      simp only [List.isEmpty_cons, Bool.false_eq_true, if_false]
      rw [runFrom_last_irrelevant timeout b l
        (some (PyExc.httpError (timeoutMsg timeout))) none]
      rfl
  · rfl

/-- C2 witness: the amended behaviour at a concrete post-commit
timeout with one backup candidate. -/
theorem post_commit_no_tracking_witness :
    ([Ev.text "partial"] : List Ev) ≠ [] ∧
    ([⟨[Ev.text "rest"], none⟩] : List Attempt) ≠ [] ∧
    (stream_generate_content
        [⟨[Ev.text "partial"], some (PyExc.timeoutException "t")⟩,
         ⟨[Ev.text "rest"], none⟩] 120 =
      ([Ev.text "partial"] ++ (stream_generate_content [⟨[Ev.text "rest"], none⟩] 120).1,
        (stream_generate_content [⟨[Ev.text "rest"], none⟩] 120).2) ∧
     stream_generate_content [⟨[Ev.text "partial"], some (PyExc.timeoutException "t")⟩] 120 =
      ([Ev.text "partial"], some (PyExc.httpError (timeoutMsg 120)))) :=
  ⟨by decide, by decide,
    post_commit_no_tracking [Ev.text "partial"] "t" [⟨[Ev.text "rest"], none⟩] 120
      (by decide) (by decide)⟩

/-- C3 counterexample: a pre-commit HTTP protocol error whose status
is 404 (not one of 429/500/502/503/504, hence outside the Forbidden,
Timeout, RateLimited and ServerError classes) is NOT retried although
a backup candidate remains: it propagates immediately and the backup
contributes no event. -/
theorem other_error_retry_counterexample :
    stream_generate_content
      [⟨[], some (PyExc.httpError "API 请求失败 (404): Not Found")⟩,
       ⟨[Ev.text "ok"], none⟩] 120 =
      ([], some (PyExc.httpError "API 请求失败 (404): Not Found")) := by decide

/-- C3 (amended): of the residual failure classes before first
content, only failures that are not httpx errors at all (the generic
exception handler, e.g. the 403 ValueError or any non-httpx exception)
are treated as transient and retried when a candidate remains; an
httpx HTTPError whose message does not contain any of the recognized
status substrings propagates immediately even with candidates
remaining. -/
theorem pre_commit_other_errors (msg : String) (rest : List Attempt) (timeout : Nat)
    (h : rest ≠ []) :
    stream_generate_content (⟨[], some (PyExc.otherError msg)⟩ :: rest) timeout =
      stream_generate_content rest timeout ∧
    (classifyStatus msg = none →
      stream_generate_content (⟨[], some (PyExc.httpError msg)⟩ :: rest) timeout =
        ([], some (PyExc.httpError msg))) := by
  constructor
  · cases rest with
    | nil => exact absurd rfl h
    | cons b l =>
      show runFrom timeout (⟨[], some (PyExc.otherError msg)⟩ :: b :: l) none = _
      rw [runFrom]
      simp only [List.isEmpty_cons, Bool.false_eq_true, if_false]
      rw [runFrom_last_irrelevant timeout b l (some (PyExc.otherError msg)) none]
      rfl
  · intro hcl
    cases rest with
    | nil => exact absurd rfl h
    | cons b l =>
      show runFrom timeout (⟨[], some (PyExc.httpError msg)⟩ :: b :: l) none = _
      rw [runFrom]
      simp [hcl]

/-- C3 witness: the amended behaviour at a concrete generic error and
a concrete unrecognized HTTP error, each with one backup candidate. -/
theorem pre_commit_other_errors_witness :
    ([⟨[Ev.text "x"], none⟩] : List Attempt) ≠ [] ∧
    (stream_generate_content
        [⟨[], some (PyExc.otherError "connection reset")⟩, ⟨[Ev.text "x"], none⟩] 1 =
      stream_generate_content [⟨[Ev.text "x"], none⟩] 1 ∧
     (classifyStatus "connection reset" = none →
      stream_generate_content
          [⟨[], some (PyExc.httpError "connection reset")⟩, ⟨[Ev.text "x"], none⟩] 1 =
        ([], some (PyExc.httpError "connection reset")))) :=
  ⟨by decide,
    pre_commit_other_errors "connection reset" [⟨[Ev.text "x"], none⟩] 1 (by decide)⟩

/-- C6: the caller-format encoder produces no outward chunk for any
thinking-typed event (including the synthetic open and close marker
events, which are thinking events with the marker strings as content):
it returns the empty string, regardless of content, tool_calls,
session metadata, or the clock, so no outward chunk ever carries
content derived from a Thinking event. -/
theorem thinking_filtered (content : Option String) (tcs : Option (List ToolCall))
    (model : String) (stream_id : Option String) (created : Option Int)
    (nowMs nowS : Int) :
    convert_sse_to_openai_format ⟨some "thinking", content, tcs⟩ model
      stream_id created nowMs nowS = Except.ok "" := rfl

/-- Field lookup of the id in a chunk body. -/
theorem chunkBody_id (sid : String) (cr : Int) (model : String)
    (delta : List (String × J)) (finish : J) :
    J.lookup (chunkBody sid cr model delta finish) "id" = some (J.str sid) := rfl

/-- Field lookup of the created timestamp in a chunk body. -/
theorem chunkBody_created (sid : String) (cr : Int) (model : String)
    (delta : List (String × J)) (finish : J) :
    J.lookup (chunkBody sid cr model delta finish) "created" = some (J.num cr) := rfl

/-- Field lookup of the choices array in a chunk body. -/
theorem chunkBody_choices (sid : String) (cr : Int) (model : String)
    (delta : List (String × J)) (finish : J) :
    J.lookup (chunkBody sid cr model delta finish) "choices" =
      some (J.arr [J.obj [("index", J.num 0), ("delta", J.obj delta),
        ("finish_reason", finish)]]) := rfl

/-- C7: for every session, generate_finish_chunk produces exactly the
framed terminal chunk followed by the [DONE] sentinel record in the
same framing, and the terminal chunk body's single choice carries an
empty delta object and finish_reason "tool_calls" when the session saw
tool calls, else "stop". -/
theorem finish_chunk_shape (model : String) (has_tool_calls : Bool)
    (stream_id : Option String) (created : Option Int) (nowMs nowS : Int) :
    ∃ body : J,
      generate_finish_chunk model has_tool_calls stream_id created nowMs nowS =
        "data: " ++ dumps body ++ "\n\ndata: [DONE]\n\n" ∧
      ∃ choice : J,
        J.lookup body "choices" = some (J.arr [choice]) ∧
        J.lookup choice "delta" = some (J.obj []) ∧
        J.lookup choice "finish_reason" =
          some (J.str (if has_tool_calls then "tool_calls" else "stop")) := by
  refine ⟨chunkBody (defaultStreamId stream_id nowMs) (defaultCreated created nowS)
    model [] (J.str (if has_tool_calls then "tool_calls" else "stop")), ?_, ?_⟩
  · rw [generate_finish_chunk]
  · exact ⟨J.obj [("index", J.num 0), ("delta", J.obj []),
      ("finish_reason", J.str (if has_tool_calls then "tool_calls" else "stop"))],
      chunkBody_choices _ _ _ _ _, rfl, rfl⟩

/-- C10: the caller-format encoder is total on events whose type is
none of text, thinking and tool_calls (including a missing type): it
reaches the final else branch and returns the empty string without
raising. -/
theorem encoder_total_unknown_type (ty : Option String)
    (h1 : ty ≠ some "text") (h2 : ty ≠ some "thinking") (h3 : ty ≠ some "tool_calls")
    (content : Option String) (tcs : Option (List ToolCall)) (model : String)
    (stream_id : Option String) (created : Option Int) (nowMs nowS : Int) :
    convert_sse_to_openai_format ⟨ty, content, tcs⟩ model stream_id created nowMs nowS =
      Except.ok "" := by
  simp [convert_sse_to_openai_format, h1, h2, h3]

/-- C10 witness: a chunk with a missing type produces the empty
string. -/
theorem encoder_total_unknown_type_witness :
    convert_sse_to_openai_format ⟨none, none, none⟩ "m" none none 0 0 = Except.ok "" :=
  encoder_total_unknown_type none (by decide) (by decide) (by decide)
    none none "m" none none 0 0

/-- A generated stream id is never the empty string. -/
theorem chatcmpl_ne_empty (t : String) : ¬("chatcmpl-" ++ t = "") := by
  intro hEq
  have hlen := congrArg String.length hEq
  rw [String.length_append] at hlen
  have h9 : "chatcmpl-".length = 9 := rfl
  have h0 : "".length = 0 := rfl
  omega

/-- A non-empty caller-supplied stream id is used as-is, whatever the
clock says. -/
theorem defaultStreamId_some (sid : String) (h : ¬sid = "") (nowMs : Int) :
    defaultStreamId (some sid) nowMs = sid := by
  simp [defaultStreamId, h]

/-- A non-zero caller-supplied created timestamp is used as-is,
whatever the clock says. -/
theorem defaultCreated_some (cr : Int) (h : ¬cr = 0) (nowS : Int) :
    defaultCreated (some cr) nowS = cr := by
  simp [defaultCreated, h]

/-- C8: in a session where the caller supplies neither streamId nor
createdAt, the defaults are generated once from the session-start
clock and are stable for the whole session: every chunk the session
emits (each rendered at its own, arbitrary, later clock time,
including the terminal chunk) is either empty or carries exactly the
session id "chatcmpl-" followed by the start milliseconds, and the
session-start seconds as its created timestamp. -/
theorem session_id_stability (model : String) (now0Ms now0S : Int)
    (events : List (Ev × Int × Int)) (hasTools : Bool) (endMs endS : Int)
    (h : now0S ≠ 0) :
    ∀ c ∈ encodeSession model none none now0Ms now0S events hasTools endMs endS,
      ∃ s, c = Except.ok s ∧
        (s = "" ∨ ∃ body tail, s = "data: " ++ dumps body ++ tail ∧
          J.lookup body "id" = some (J.str ("chatcmpl-" ++ toString now0Ms)) ∧
          J.lookup body "created" = some (J.num now0S)) := by
  have hsid : defaultStreamId none now0Ms = "chatcmpl-" ++ toString now0Ms := rfl
  have hcr : defaultCreated none now0S = now0S := rfl
  have hne : ¬("chatcmpl-" ++ toString now0Ms = "") := chatcmpl_ne_empty _
  intro c hc
  rw [encodeSession, List.mem_append] at hc
  rcases hc with hc | hc
  · rw [List.mem_map] at hc
    obtain ⟨e, _, rfl⟩ := hc
    rcases e with ⟨ev, tms, ts⟩
    cases ev with
    | thinking s => exact ⟨"", rfl, Or.inl rfl⟩
    | text s =>
      have h1 : defaultStreamId (some ("chatcmpl-" ++ toString now0Ms)) tms =
          "chatcmpl-" ++ toString now0Ms := defaultStreamId_some _ hne tms
      have h2 : defaultCreated (some now0S) ts = now0S := defaultCreated_some _ h ts
      refine ⟨"data: " ++ dumps (chunkBody ("chatcmpl-" ++ toString now0Ms) now0S model
          [("content", J.str s)] J.null) ++ "\n\n", ?_,
        Or.inr ⟨chunkBody ("chatcmpl-" ++ toString now0Ms) now0S model
          [("content", J.str s)] J.null, "\n\n", rfl,
          chunkBody_id _ _ _ _ _, chunkBody_created _ _ _ _ _⟩⟩
      rw [hsid, hcr]
      simp only [evToChunk, convert_sse_to_openai_format, h1, h2]
      rfl
    | toolCalls calls =>
      have h1 : defaultStreamId (some ("chatcmpl-" ++ toString now0Ms)) tms =
          "chatcmpl-" ++ toString now0Ms := defaultStreamId_some _ hne tms
      have h2 : defaultCreated (some now0S) ts = now0S := defaultCreated_some _ h ts
      refine ⟨"data: " ++ dumps (chunkBody ("chatcmpl-" ++ toString now0Ms) now0S model
          [("tool_calls", J.arr (calls.map jToolCall))] J.null) ++ "\n\n", ?_,
        Or.inr ⟨chunkBody ("chatcmpl-" ++ toString now0Ms) now0S model
          [("tool_calls", J.arr (calls.map jToolCall))] J.null, "\n\n", rfl,
          chunkBody_id _ _ _ _ _, chunkBody_created _ _ _ _ _⟩⟩
      rw [hsid, hcr]
      simp only [evToChunk, convert_sse_to_openai_format, h1, h2]
      rfl
  · rw [List.mem_singleton] at hc
    subst hc
    have h1 : defaultStreamId (some ("chatcmpl-" ++ toString now0Ms)) endMs =
        "chatcmpl-" ++ toString now0Ms := defaultStreamId_some _ hne endMs
    have h2 : defaultCreated (some now0S) endS = now0S := defaultCreated_some _ h endS
    refine ⟨generate_finish_chunk model hasTools
        (some (defaultStreamId none now0Ms)) (some (defaultCreated none now0S)) endMs endS,
      rfl, Or.inr ⟨chunkBody ("chatcmpl-" ++ toString now0Ms) now0S model []
        (J.str (if hasTools then "tool_calls" else "stop")), "\n\ndata: [DONE]\n\n", ?_,
        chunkBody_id _ _ _ _ _, chunkBody_created _ _ _ _ _⟩⟩
    rw [hsid, hcr, generate_finish_chunk, h1, h2]

/-- C8 witness: a concrete session of one text event rendered at a
later clock time than the session start. -/
theorem session_id_stability_witness :
    (2 : Int) ≠ 0 ∧
    ∀ c ∈ encodeSession "m" none none 1 2 [(Ev.text "hi", 30, 40)] false 50 60,
      ∃ s, c = Except.ok s ∧
        (s = "" ∨ ∃ body tail, s = "data: " ++ dumps body ++ tail ∧
          J.lookup body "id" = some (J.str ("chatcmpl-" ++ toString (1 : Int))) ∧
          J.lookup body "created" = some (J.num 2)) :=
  ⟨by decide, session_id_stability "m" 1 2 [(Ev.text "hi", 30, 40)] false 50 60 (by decide)⟩
